import Mathlib

/-!
Verification of the `rust_webserver` repository: a fixed-size thread pool
(`src/lib.rs`) driving a small HTTP request handler (`src/main.rs`).

The development has three parts:

1. A pure model of the sequential request-handling glue in `src/main.rs`
   (`routeRequest`, `mkResponse`, `handle_connection`), at the byte level
   (bytes are `Nat`s; Rust's `String::len` is a byte length, so file
   contents are modelled as byte lists).

2. Functional models of `ThreadPool::new` and of the channel-level
   behaviour of `ThreadPool::execute` from `src/lib.rs`.

3. An operational small-step model of the running pool (`Step`,
   `Reachable`): workers, the shared `Arc<Mutex<Receiver<Job>>>`, the job
   queue, and mutex poisoning.  The model is faithful to the Rust
   semantics of the worker loop
   `while let Ok(job) = receiver.lock().unwrap().recv() { ... job(); }`:
   the temporary `MutexGuard` produced in the scrutinee of a `while let`
   lives to the end of each loop-body iteration, so the worker HOLDS the
   mutex while the job runs, and a panic inside `job()` unwinds while the
   guard is held, poisoning the mutex.
-/

/-! ### Part 1: the request-handling glue of `src/main.rs` -/

/-- ASCII bytes of a Lean string (all strings appearing in `main.rs` are
ASCII, so `Char.toNat` is exactly the UTF-8 byte). -/
def strBytes (s : String) : List Nat := s.data.map Char.toNat

/-- Decimal rendering of a natural number as ASCII bytes, as Rust's
`Display` for `usize` produces it in `format!("... {length} ...")`:
most-significant digit first, no leading zeros, `"0"` for zero. -/
def decBytes (n : Nat) : List Nat :=
  if n = 0 then [48] else (Nat.digits 10 n).reverse.map (fun d => d + 48)

/-- Decode a run of ASCII decimal digits back to the number it denotes
(used to check that the declared `Content-Length` header value equals the
actual body length). -/
def parseDec (bs : List Nat) : Nat :=
  Nat.ofDigits 10 ((bs.map (fun b => b - 48)).reverse)

/-- The response bytes produced by `handle_connection` (src/main.rs:69):
`format!("{status_line}\r\nContent-Length: {length}\r\n\r\n{contents}")`
where `length = contents.len()` is the byte length of the file contents. -/
def mkResponse (status_line : String) (contents : List Nat) : List Nat :=
  strBytes status_line ++ strBytes "\r\nContent-Length: " ++
    decBytes contents.length ++ strBytes "\r\n\r\n" ++ contents

/-- The `match &request_line[..]` of src/main.rs:50-60: maps the request
line to (seconds slept, status line, file name served). -/
def routeRequest (request_line : String) : Nat × String × String :=
  if request_line = "GET / HTTP/1.1" then
    (0, "HTTP/1.1 200 OK", "pages/hello.html")
  else if request_line = "GET /sleep HTTP/1.1" then
    (5, "HTTP/1.1 200 OK", "pages/hello.html")
  else
    (0, "HTTP/1.1 404 NOT FOUND", "pages/404.html")

/-- `handle_connection` (src/main.rs:41-74) as a pure function.
`fs` models the file system (`fs::read_to_string`, `none` = missing or
unreadable file, contents as bytes since `contents.len()` is bytes);
`request_line` is `buf_reader.lines().next()` collapsed over its two
`unwrap`s (`none` = no line or read error).  An `Except.error` is a panic
of the job that runs this connection; on success the result is the
seconds slept and the bytes written back to the stream by `write_all`. -/
def handle_connection (fs : String → Option (List Nat))
    (request_line : Option String) : Except String (Nat × List Nat) :=
  match request_line with
  | none => Except.error "no request line"
  | some rl =>
    let r := routeRequest rl
    match fs r.2.2 with
    | none => Except.error "file read failed"
    | some contents => Except.ok (r.1, mkResponse r.2.1 contents)

/-- Split a byte list at the FIRST occurrence of the header terminator
`\r\n\r\n`, returning the part before it and the part after it.  Used to
check the wire format of responses independently of how they were built. -/
def splitAtMarker : List Nat → Option (List Nat × List Nat)
  | [] => none
  | b :: rest =>
    if (b :: rest).take 4 = [13, 10, 13, 10] then some ([], rest.drop 3)
    else
      match splitAtMarker rest with
      | some (h, t) => some (b :: h, t)
      | none => none

/-! ### Part 2: `ThreadPool::new`, `Worker::new`, and the channel side of
`ThreadPool::execute` (src/lib.rs) -/

/-- A `Worker` (src/lib.rs:62-65): an id and the handle of its one
dedicated thread.  Thread handles are abstracted to the identifier of the
spawned thread; `thread::spawn` in `Worker::new` returns a fresh handle,
one per worker. -/
structure Worker where
  id : Nat
  thread : Nat
  deriving DecidableEq, Repr

/-- `Worker::new` (src/lib.rs:73-84): binds the id to one freshly spawned
thread (the `th` argument stands for the fresh handle `thread::spawn`
returns). -/
def Worker.new (id th : Nat) : Worker := { id := id, thread := th }

/-- The `ThreadPool` struct (src/lib.rs:9-13): the workers vector and the
channel sender (the sender is modelled in Part 3; here we keep the
workers). -/
structure ThreadPoolRec where
  workers : List Worker
  deriving DecidableEq, Repr

/-- `ThreadPool::new` (src/lib.rs:28-43).  `assert!(size > 0)` panics
before anything else happens, so the failure case carries no partial
pool; otherwise ids `0..size` are each bound to a fresh thread. -/
def ThreadPool.new (size : Nat) : Except String ThreadPoolRec :=
  if 0 < size then
    Except.ok { workers := (List.range size).map (fun id => Worker.new id id) }
  else
    Except.error "assertion failed: size > 0"

/-- `mpsc::Sender::send` (called at src/lib.rs:54): succeeds and appends
to the channel queue as long as the receiver is alive; returns `Err` once
the receiving half has been dropped. -/
def chanSend (receiverOpen : Bool) (queue : List Nat) (j : Nat) :
    Option (List Nat) :=
  if receiverOpen then some (queue ++ [j]) else none

/-- `ThreadPool::execute` (src/lib.rs:49-55): boxes the job, sends it on
the channel and `unwrap`s the result.  It returns no result and no
completion signal: on success the only effect is the grown queue
(`Except.error` = the `unwrap` panic when the receiver is gone). -/
def ThreadPool.execute (receiverOpen : Bool) (queue : List Nat) (j : Nat) :
    Except String (List Nat) :=
  match chanSend receiverOpen queue j with
  | some q => Except.ok q
  | none => Except.error "called Result::unwrap on an Err value"

/-! ### Part 3: operational model of the running pool (src/lib.rs)

The worker loop (src/lib.rs:77-81) is
`while let Ok(job) = receiver.lock().unwrap().recv() { println!(...); job(); }`.
By Rust's temporary-scope rules for `while let`, the `MutexGuard` returned
by `lock().unwrap()` is a temporary of the scrutinee and lives until the
END of each loop-body iteration: the worker still holds the mutex while
`job()` runs, and releases it only after the job returns (or when the
loop exits).  If `job()` panics, the unwind drops the guard of a panicking
thread, which POISONS the mutex; every later `lock()` returns `Err` and
the `.unwrap()` after it panics that worker too. -/

/-- Status of one worker thread. -/
inductive WStatus where
  /-- at the top of the loop, about to call `receiver.lock()` -/
  | idle
  /-- holds the mutex guard, inside `recv()` -/
  | locked
  /-- running job `j` (still holding the mutex guard, see above) -/
  | executing (j : Nat)
  /-- the loop exited normally: `recv()` returned `Err` (channel closed) -/
  | stopped
  /-- the thread died by panic -/
  | panicked
  deriving DecidableEq, Repr

/-- Did this worker's thread not terminate yet?  The channel receiver is
owned (via `Arc`) by the worker closures, so it is dropped exactly when
every worker thread has terminated. -/
def aliveW : WStatus → Bool
  | .stopped => false
  | .panicked => false
  | _ => true

/-- Global state of a running pool.  Jobs are identified by `Nat`s; `sent`,
`delivered`, `executed` and `faulted` are histories recorded for the
statements of the theorems (in submission, dequeue and completion order);
`inFlight` holds the dequeued-but-unfinished jobs with their worker. -/
structure PoolState where
  /-- pool size (the `size` passed to `ThreadPool::new`) -/
  n : Nat
  /-- status of each worker id -/
  worker : Nat → WStatus
  /-- which worker currently holds the `Mutex<Receiver<Job>>`, if any -/
  lockHolder : Option Nat
  /-- has the mutex been poisoned by a panic while it was held -/
  poisoned : Bool
  /-- is the `Sender` (owned by the `ThreadPool` value) still alive -/
  senderOpen : Bool
  /-- pending jobs in the channel, front = next to be received -/
  queue : List Nat
  /-- all jobs ever sent, in submission order -/
  sent : List Nat
  /-- all jobs ever received by a worker, in dequeue order -/
  delivered : List Nat
  /-- (worker, job) pairs dequeued but not yet finished -/
  inFlight : List (Nat × Nat)
  /-- (worker, job) pairs whose job ran to completion -/
  executed : List (Nat × Nat)
  /-- (worker, job) pairs whose job panicked -/
  faulted : List (Nat × Nat)

/-- Is the channel's receiving half still alive (some worker thread has
not terminated)? -/
def receiverAlive (s : PoolState) : Prop :=
  ∃ w, w < s.n ∧ aliveW (s.worker w) = true

/-- The pool right after `ThreadPool::new(n)` returned: all workers
spawned and idle, channel empty and open, mutex free and clean. -/
def initState (n : Nat) : PoolState :=
  { n := n, worker := fun _ => .idle, lockHolder := none, poisoned := false,
    senderOpen := true, queue := [], sent := [], delivered := [],
    inFlight := [], executed := [], faulted := [] }

/-- One atomic step of the pool, faithful to src/lib.rs. -/
inductive Step : PoolState → PoolState → Prop where
  /-- `ThreadPool::execute` → `sender.send(job)` succeeds (src/lib.rs:54):
  the receiver is still alive, the job is appended to the channel. -/
  | send (s : PoolState) (j : Nat) (hopen : s.senderOpen = true)
      (halive : receiverAlive s) :
      Step s { s with queue := s.queue ++ [j], sent := s.sent ++ [j] }
  /-- the `ThreadPool` value is dropped, dropping the `Sender`. -/
  | closeSender (s : PoolState) :
      Step s { s with senderOpen := false }
  /-- `receiver.lock().unwrap()` succeeds (src/lib.rs:78): the mutex is
  free and not poisoned; the worker now holds the guard. -/
  | acquire (s : PoolState) (w : Nat) (hw : w < s.n)
      (hst : s.worker w = .idle) (hl : s.lockHolder = none)
      (hp : s.poisoned = false) :
      Step s { s with worker := Function.update s.worker w .locked,
                      lockHolder := some w }
  /-- `receiver.lock()` returns `Err` on a poisoned mutex and the
  `.unwrap()` panics this worker (src/lib.rs:78). -/
  | acquirePoisoned (s : PoolState) (w : Nat) (hw : w < s.n)
      (hst : s.worker w = .idle) (hl : s.lockHolder = none)
      (hp : s.poisoned = true) :
      Step s { s with worker := Function.update s.worker w .panicked }
  /-- `recv()` returns `Ok(job)` (src/lib.rs:78): the front job is
  removed and the worker starts executing it.  The guard is a `while let`
  scrutinee temporary, so the mutex stays held. -/
  | dequeue (s : PoolState) (w j : Nat) (rest : List Nat) (hw : w < s.n)
      (hst : s.worker w = .locked) (hl : s.lockHolder = some w)
      (hq : s.queue = j :: rest) :
      Step s { s with worker := Function.update s.worker w (.executing j),
                      queue := rest, delivered := s.delivered ++ [j],
                      inFlight := s.inFlight ++ [(w, j)] }
  /-- `recv()` returns `Err` (src/lib.rs:78): queue drained and the sender
  dropped; the `while let` exits, the guard is dropped, the thread ends. -/
  | recvClosed (s : PoolState) (w : Nat) (hw : w < s.n)
      (hst : s.worker w = .locked) (hl : s.lockHolder = some w)
      (hq : s.queue = []) (hsend : s.senderOpen = false) :
      Step s { s with worker := Function.update s.worker w .stopped,
                      lockHolder := none }
  /-- `job()` returns (src/lib.rs:80): end of the loop-body iteration, the
  guard is dropped, the worker goes back to the top of the loop. -/
  | finish (s : PoolState) (w j : Nat) (l₁ l₂ : List (Nat × Nat))
      (hst : s.worker w = .executing j)
      (hin : s.inFlight = l₁ ++ (w, j) :: l₂) :
      Step s { s with worker := Function.update s.worker w .idle,
                      lockHolder := none, inFlight := l₁ ++ l₂,
                      executed := s.executed ++ [(w, j)] }
  /-- `job()` panics: the unwind drops the guard while panicking, which
  poisons the mutex, and the worker thread dies. -/
  | jobPanic (s : PoolState) (w j : Nat) (l₁ l₂ : List (Nat × Nat))
      (hst : s.worker w = .executing j)
      (hin : s.inFlight = l₁ ++ (w, j) :: l₂) :
      Step s { s with worker := Function.update s.worker w .panicked,
                      lockHolder := none, poisoned := true,
                      inFlight := l₁ ++ l₂, faulted := s.faulted ++ [(w, j)] }

/-- States reachable from a freshly constructed pool of `n` workers. -/
inductive Reachable (n : Nat) : PoolState → Prop where
  | init : Reachable n (initState n)
  | step {s t : PoolState} : Reachable n s → Step s t → Reachable n t

/-! ### Concrete states and inputs used in the closed instantiations -/

/-- A demo file system: a two-byte `hello` page and a two-byte 404 page. -/
def fsDemo : String → Option (List Nat) := fun f =>
  if f = "pages/hello.html" then some [104, 105]
  else if f = "pages/404.html" then some [110, 111]
  else none

/-- Pool of 1 after one `execute`: job 7 sent and queued. -/
def c1state : PoolState :=
  { initState 1 with queue := (initState 1).queue ++ [7],
                     sent := (initState 1).sent ++ [7] }

/-- Pool of 2 after one `execute` of job 0. -/
def c2s1 : PoolState :=
  { initState 2 with queue := (initState 2).queue ++ [0],
                     sent := (initState 2).sent ++ [0] }

/-- ... then worker 0 acquires the mutex. -/
def c2s2 : PoolState :=
  { c2s1 with worker := Function.update c2s1.worker 0 WStatus.locked,
              lockHolder := some 0 }

/-- ... then worker 0 dequeues job 0 and starts executing it, still
holding the mutex. -/
def c2s3 : PoolState :=
  { c2s2 with worker := Function.update c2s2.worker 0 (WStatus.executing 0),
              queue := [], delivered := c2s2.delivered ++ [0],
              inFlight := c2s2.inFlight ++ [(0, 0)] }

/-- Pool of 1 whose only worker holds the mutex inside `recv()` with the
queue drained and the sender dropped: `recv()` is about to yield the
closed signal. -/
def c6state : PoolState :=
  { initState 1 with worker := Function.update (initState 1).worker 0 WStatus.locked,
                     lockHolder := some 0, senderOpen := false }

/-! ### Invariants of the pool model -/

/-- C1: each job submitted via `execute` is conserved: in every reachable
state it occurs in `sent` exactly as often as in the queue, the in-flight
set, the completed list and the faulted list together — so it is
delivered to exactly one worker and run at most once, never duplicated
and never silently dropped while the channel is open (its eventual
execution is the fairness half of "exactly once"; the safety half proved
here is that the counts always balance). -/
theorem jobs_conserved_exactly_once {n : Nat} {s : PoolState} (h : Reachable n s) (j : Nat) :
    s.sent.count j =
      s.queue.count j + (s.inFlight.map Prod.snd).count j
        + (s.executed.map Prod.snd).count j + (s.faulted.map Prod.snd).count j := by
  induction h with
  | init => simp [initState]
  | step hr hstep ih =>
    cases hstep with
    | send j' hopen halive =>
      rcases eq_or_ne j j' with rfl | hne <;>
        simp_all [List.count_append, List.count_cons] <;> omega
    | closeSender => simpa using ih
    | acquire w hw hst hl hp => simpa using ih
    | acquirePoisoned w hw hst hl hp => simpa using ih
    | dequeue w j' rest hw hst hl hq =>
      rcases eq_or_ne j j' with rfl | hne <;>
        simp_all [List.count_append, List.count_cons] <;> omega
    | recvClosed w hw hst hl hq hsend => simpa using ih
    | finish w j' l₁ l₂ hst hin =>
      rcases eq_or_ne j j' with rfl | hne <;>
        simp_all [List.count_append, List.count_cons, List.map_append] <;> omega
    | jobPanic w j' l₁ l₂ hst hin =>
      rcases eq_or_ne j j' with rfl | hne <;>
        simp_all [List.count_append, List.count_cons, List.map_append] <;> omega

/-- C7: FIFO up to delivery: in every reachable state the jobs delivered
so far, followed by the jobs still queued, are exactly the jobs sent, in
submission order — a single caller's jobs are dequeued in the order it
submitted them (the model has one channel-arrival order, so this is the
single-caller guarantee; nothing relates different concurrent callers). -/
theorem fifo_delivery_order {n : Nat} {s : PoolState} (h : Reachable n s) :
    s.delivered ++ s.queue = s.sent := by
  induction h with
  | init => simp [initState]
  | step hr hstep ih =>
    cases hstep with
    | send j' hopen halive => simp [← List.append_assoc, ih]
    | closeSender => simpa using ih
    | acquire w hw hst hl hp => simpa using ih
    | acquirePoisoned w hw hst hl hp => simpa using ih
    | dequeue w j' rest hw hst hl hq =>
      simp only
      rw [List.append_assoc, List.singleton_append, ← hq, ih]
    | recvClosed w hw hst hl hq hsend => simpa using ih
    | finish w j' l₁ l₂ hst hin => simpa using ih
    | jobPanic w j' l₁ l₂ hst hin => simpa using ih

/-- A worker that is executing a job holds the mutex: the guard produced
by the `while let` scrutinee is still alive during `job()`. -/
lemma reachable_execLock {n : Nat} {s : PoolState} (h : Reachable n s) :
    ∀ w j, s.worker w = WStatus.executing j → s.lockHolder = some w := by
  induction h with
  | init => intro w j hw; simp [initState] at hw
  | step hr hstep ih =>
    cases hstep with
    | send j' hopen halive => simpa using ih
    | closeSender => simpa using ih
    | acquire w hw hst hl hp =>
      intro w' j' hw'
      simp only at hw' ⊢
      rcases eq_or_ne w' w with rfl | hne
      · simp [Function.update_same] at hw'
      · rw [Function.update_noteq hne] at hw'
        exact absurd (ih w' j' hw') (by simp [hl])
    | acquirePoisoned w hw hst hl hp =>
      intro w' j' hw'
      simp only at hw' ⊢
      rcases eq_or_ne w' w with rfl | hne
      · simp [Function.update_same] at hw'
      · rw [Function.update_noteq hne] at hw'
        exact absurd (ih w' j' hw') (by simp [hl])
    | dequeue w j' rest hw hst hl hq =>
      intro w' j'' hw'
      simp only at hw' ⊢
      rcases eq_or_ne w' w with rfl | hne
      · simpa using hl
      · rw [Function.update_noteq hne] at hw'
        have h1 := ih w' j'' hw'
        rw [hl] at h1
        exact absurd (Option.some_injective _ h1) hne.symm
    | recvClosed w hw hst hl hq hsend =>
      intro w' j' hw'
      simp only at hw' ⊢
      rcases eq_or_ne w' w with rfl | hne
      · simp [Function.update_same] at hw'
      · rw [Function.update_noteq hne] at hw'
        have h1 := ih w' j' hw'
        rw [hl] at h1
        exact absurd (Option.some_injective _ h1) hne.symm
    | finish w j' l₁ l₂ hst hin =>
      intro w' j'' hw'
      simp only at hw' ⊢
      rcases eq_or_ne w' w with rfl | hne
      · simp [Function.update_same] at hw'
      · rw [Function.update_noteq hne] at hw'
        have h1 := ih w' j'' hw'
        have h2 := ih w j' hst
        rw [h2] at h1
        exact absurd (Option.some_injective _ h1) hne.symm
    | jobPanic w j' l₁ l₂ hst hin =>
      intro w' j'' hw'
      simp only at hw' ⊢
      rcases eq_or_ne w' w with rfl | hne
      · simp [Function.update_same] at hw'
      · rw [Function.update_noteq hne] at hw'
        have h1 := ih w' j'' hw'
        have h2 := ih w j' hst
        rw [h2] at h1
        exact absurd (Option.some_injective _ h1) hne.symm

/-! ### Wire format of responses -/

lemma take_cons_ne_marker {b : Nat} (hb : b ≠ 13) (x : List Nat) :
    (b :: x).take 4 ≠ [13, 10, 13, 10] := by
  rw [List.take_succ_cons]
  intro h
  injection h with h1 _
  exact hb h1

/-- `splitAtMarker` fires immediately on a leading marker. -/
lemma splitAtMarker_marker (rest : List Nat) :
    splitAtMarker (13 :: 10 :: 13 :: 10 :: rest) = some ([], rest) := by
  simp [splitAtMarker]

/-- Bytes that are not `\r` cannot start the marker, so `splitAtMarker`
walks past them. -/
lemma splitAtMarker_skip {l : List Nat} (hl : ∀ b ∈ l, b ≠ 13) (m : List Nat) :
    splitAtMarker (l ++ m) =
      (splitAtMarker m).map (fun p => (l ++ p.1, p.2)) := by
  induction l with
  | nil =>
    cases h : splitAtMarker m with
    | none => simp [h]
    | some p => simp [h]
  | cons b l ih =>
    have hb : b ≠ 13 := hl b (by simp)
    have hl' : ∀ x ∈ l, x ≠ 13 := fun x hx => hl x (by simp [hx])
    rw [List.cons_append, splitAtMarker, if_neg (take_cons_ne_marker hb _), ih hl']
    cases h : splitAtMarker m with
    | none => simp
    | some p => simp

/-- A `\r\n` followed by a byte other than `\r` is not the marker either. -/
lemma splitAtMarker_crlf {c : Nat} (hc : c ≠ 13) (x : List Nat) :
    splitAtMarker (13 :: 10 :: c :: x) =
      (splitAtMarker (10 :: c :: x)).map (fun p => (13 :: p.1, p.2)) := by
  have hne : (13 :: 10 :: c :: x).take 4 ≠ [13, 10, 13, 10] := by
    simp only [List.take_succ_cons]
    intro h
    injection h with _ h; injection h with _ h; injection h with h1 _
    exact hc h1
  rw [splitAtMarker, if_neg hne]
  cases h : splitAtMarker (10 :: c :: x) with
  | none => simp
  | some p => simp

/-- Every byte of the decimal rendering is an ASCII digit. -/
lemma decBytes_mem {n b : Nat} (hb : b ∈ decBytes n) : 48 ≤ b ∧ b < 58 := by
  unfold decBytes at hb
  by_cases h : n = 0
  · simp [h] at hb
    omega
  · simp only [h, if_false, List.mem_map, List.mem_reverse] at hb
    obtain ⟨d, hd, rfl⟩ := hb
    have : d < 10 := Nat.digits_lt_base (by norm_num) hd
    omega

/-- The decimal rendering of `n` parses back to `n`: a declared
`Content-Length` denotes exactly the number it was rendered from. -/
lemma parseDec_decBytes (n : Nat) : parseDec (decBytes n) = n := by
  by_cases h : n = 0
  · simp [h, parseDec, decBytes, Nat.ofDigits]
  · have hmap : ((Nat.digits 10 n).reverse.map (fun d => d + 48)).map
        (fun b => b - 48) = (Nat.digits 10 n).reverse := by
      rw [List.map_map]
      have hid : ((fun b => b - 48) ∘ fun d : Nat => d + 48) = id :=
        funext fun d => by simp
      rw [hid, List.map_id]
    simp only [parseDec, decBytes, h, if_false, hmap, List.reverse_reverse]
    exact Nat.ofDigits_digits 10 n

/-- The response built by `handle_connection` splits at the FIRST
`\r\n\r\n` into exactly the header part and the file contents, provided
the status line contains no `\r`. -/
lemma mkResponse_split (status : String) (contents : List Nat)
    (hs : ∀ b ∈ strBytes status, b ≠ 13) :
    splitAtMarker (mkResponse status contents) =
      some (strBytes status ++ strBytes "\r\nContent-Length: "
              ++ decBytes contents.length, contents) := by
  have hA : strBytes "\r\nContent-Length: " =
      13 :: 10 :: 67 :: strBytes "ontent-Length: " := by decide
  have hB : strBytes "\r\n\r\n" = [13, 10, 13, 10] := by decide
  have hconc : ∀ b ∈ (10 :: 67 :: strBytes "ontent-Length: "), b ≠ 13 := by
    decide
  have hl2 : ∀ b ∈ (10 :: 67 :: strBytes "ontent-Length: ")
      ++ decBytes contents.length, b ≠ 13 := by
    intro b hbmem
    rcases List.mem_append.mp hbmem with hbin | hbin
    · exact hconc b hbin
    · intro hb13
      have := decBytes_mem hbin
      omega
  have expand : mkResponse status contents =
      strBytes status ++ (13 :: 10 :: 67 :: ((strBytes "ontent-Length: "
        ++ decBytes contents.length) ++ (13 :: 10 :: 13 :: 10 :: contents))) := by
    simp [mkResponse, hA, hB, List.append_assoc]
  rw [expand, splitAtMarker_skip hs, splitAtMarker_crlf (by norm_num)]
  have reassoc : (10 :: 67 :: ((strBytes "ontent-Length: "
        ++ decBytes contents.length) ++ (13 :: 10 :: 13 :: 10 :: contents)))
      = ((10 :: 67 :: strBytes "ontent-Length: ") ++ decBytes contents.length)
        ++ (13 :: 10 :: 13 :: 10 :: contents) := by
    simp [List.append_assoc]
  rw [reassoc, splitAtMarker_skip hl2, splitAtMarker_marker]
  simp [hA, List.append_assoc]

/-! ### Remaining claim theorems and closed instantiations -/

/-- The state `c1state` is reachable: one `execute` from a fresh pool. -/
lemma c1state_reachable : Reachable 1 c1state :=
  Reachable.step Reachable.init (Step.send (initState 1) 7 rfl ⟨0, by decide, rfl⟩)

theorem jobs_conserved_exactly_once_witness :
    c1state.sent.count 7 =
      c1state.queue.count 7 + (c1state.inFlight.map Prod.snd).count 7
        + (c1state.executed.map Prod.snd).count 7
        + (c1state.faulted.map Prod.snd).count 7 :=
  jobs_conserved_exactly_once c1state_reachable 7

theorem fifo_delivery_order_witness :
    c1state.delivered ++ c1state.queue = c1state.sent :=
  fifo_delivery_order c1state_reachable

/-- The state `c2s3` is reachable: send job 0, worker 0 locks, dequeues. -/
lemma c2s3_reachable : Reachable 2 c2s3 :=
  Reachable.step (Reachable.step (Reachable.step Reachable.init
    (Step.send (initState 2) 0 rfl ⟨0, by decide, rfl⟩))
    (Step.acquire c2s1 0 (by decide) rfl rfl rfl))
    (Step.dequeue c2s2 0 0 [] (by decide) rfl rfl rfl)

/-- C2: REFUTED ON THE CODE.  Because the `while let` scrutinee's
`MutexGuard` lives for the whole loop body, a worker executing a job
still holds the dequeue mutex, so while it executes NO other idle worker
can make any move at all — it can neither acquire the mutex nor dequeue:
one slow job serializes the whole pool, not just one worker. -/
theorem executing_worker_blocks_idle_workers {n : Nat} {s t : PoolState}
    (hr : Reachable n s) (hstep : Step s t) (w j : Nat)
    (hexec : s.worker w = WStatus.executing j)
    (w' : Nat) (hne : w' ≠ w) (hidle : s.worker w' = WStatus.idle) :
    t.worker w' = WStatus.idle := by
  have hlock : s.lockHolder = some w := reachable_execLock hr w j hexec
  cases hstep with
  | send j' hopen halive => simpa using hidle
  | closeSender => simpa using hidle
  | acquire w₀ hw hst hl hp =>
    rw [hl] at hlock
    cases hlock
  | acquirePoisoned w₀ hw hst hl hp =>
    rw [hl] at hlock
    cases hlock
  | dequeue w₀ j₀ rest hw hst hl hq =>
    rcases eq_or_ne w' w₀ with rfl | hne₀
    · rw [hidle] at hst
      cases hst
    · simpa [Function.update_noteq hne₀] using hidle
  | recvClosed w₀ hw hst hl hq hsend =>
    rw [hl] at hlock
    have hww : w = w₀ := (Option.some_injective _ hlock).symm
    rw [← hww] at hst
    rw [hexec] at hst
    cases hst
  | finish w₀ j₀ l₁ l₂ hst hin =>
    rcases eq_or_ne w' w₀ with rfl | hne₀
    · rw [hidle] at hst
      cases hst
    · simpa [Function.update_noteq hne₀] using hidle
  | jobPanic w₀ j₀ l₁ l₂ hst hin =>
    rcases eq_or_ne w' w₀ with rfl | hne₀
    · rw [hidle] at hst
      cases hst
    · simpa [Function.update_noteq hne₀] using hidle

theorem executing_worker_blocks_idle_workers_witness :
    ({ c2s3 with senderOpen := false } : PoolState).worker 1 = WStatus.idle :=
  executing_worker_blocks_idle_workers c2s3_reachable (Step.closeSender c2s3)
    0 0 rfl 1 (by decide) rfl

/-- C3: `ThreadPool::new(0)` fails the `assert!(size > 0)` before any
worker thread is spawned (the error case of the model carries no partial
pool), and for every `size > 0` construction succeeds. -/
theorem pool_new_zero_panics :
    ThreadPool.new 0 = Except.error "assertion failed: size > 0" ∧
    ∀ size : Nat, 0 < size → ∃ p, ThreadPool.new size = Except.ok p := by
  constructor
  · rfl
  · intro size hs
    refine ⟨{ workers := (List.range size).map (fun id => Worker.new id id) }, ?_⟩
    simp [ThreadPool.new, hs]

theorem pool_new_zero_panics_witness :
    ∃ p, ThreadPool.new 4 = Except.ok p :=
  pool_new_zero_panics.2 4 (by norm_num)

/-- C4: for every `size > 0`, `ThreadPool::new(size)` yields a pool with
exactly `size` workers whose ids are the ordinals `0, …, size-1` in
order (hence distinct), each bound to its own freshly spawned thread
(the thread handles are pairwise distinct). -/
theorem pool_new_spawns_size_workers (size : Nat) (hs : 0 < size) :
    ∃ p, ThreadPool.new size = Except.ok p ∧
      p.workers.length = size ∧
      p.workers.map Worker.id = List.range size ∧
      (p.workers.map Worker.thread).Nodup := by
  refine ⟨{ workers := (List.range size).map (fun id => Worker.new id id) },
    by simp [ThreadPool.new, hs], by simp, ?_, ?_⟩
  · rw [List.map_map,
      show (Worker.id ∘ fun id : Nat => Worker.new id id) = id from
        funext fun x => rfl,
      List.map_id]
  · rw [List.map_map,
      show (Worker.thread ∘ fun id : Nat => Worker.new id id) = id from
        funext fun x => rfl,
      List.map_id]
    exact List.nodup_range size

theorem pool_new_spawns_size_workers_witness :
    ∃ p, ThreadPool.new 3 = Except.ok p ∧
      p.workers.length = 3 ∧
      p.workers.map Worker.id = List.range 3 ∧
      (p.workers.map Worker.thread).Nodup :=
  pool_new_spawns_size_workers 3 (by norm_num)

/-- C5: `execute` only appends the job to the channel and returns — no
result, no completion signal, no waiting for the job to run — and it
propagates a panic (the `unwrap` of `send`'s `Err`) exactly when the
receiving half of the channel has been dropped. -/
theorem execute_enqueues_iff_receiver_open (receiverOpen : Bool)
    (queue : List Nat) (j : Nat) :
    (ThreadPool.execute receiverOpen queue j = Except.ok (queue ++ [j])
        ↔ receiverOpen = true) ∧
    ((∃ msg, ThreadPool.execute receiverOpen queue j = Except.error msg)
        ↔ receiverOpen = false) := by
  cases receiverOpen <;> simp [ThreadPool.execute, chanSend]

/-- C6: the worker dispatch loop (i) leaves a worker in the `stopped`
state only by the `recv()`-closed branch — sender dropped and queue
drained, with the worker blocked in `recv()`; (ii) when the closed
signal is available the loop can exit, stopping the worker and releasing
the mutex; (iii) as long as `recv()` yields a job the loop continues by
executing it; and (iv) `stopped` is terminal: the thread has exited (and
its `JoinHandle` in the `Worker` struct is joinable). -/
theorem worker_loop_exit_characterization :
    (∀ s t : PoolState, ∀ w : Nat, Step s t →
        s.worker w ≠ WStatus.stopped → t.worker w = WStatus.stopped →
        s.worker w = WStatus.locked ∧ s.lockHolder = some w ∧
          s.queue = [] ∧ s.senderOpen = false) ∧
    (∀ s : PoolState, ∀ w : Nat, w < s.n → s.worker w = WStatus.locked →
        s.lockHolder = some w → s.queue = [] → s.senderOpen = false →
        Step s { s with worker := Function.update s.worker w WStatus.stopped,
                        lockHolder := none }) ∧
    (∀ s : PoolState, ∀ w j : Nat, ∀ rest : List Nat, w < s.n →
        s.worker w = WStatus.locked → s.lockHolder = some w →
        s.queue = j :: rest →
        Step s { s with worker := Function.update s.worker w (WStatus.executing j),
                        queue := rest, delivered := s.delivered ++ [j],
                        inFlight := s.inFlight ++ [(w, j)] }) ∧
    (∀ s t : PoolState, ∀ w : Nat, Step s t →
        s.worker w = WStatus.stopped → t.worker w = WStatus.stopped) := by
  refine ⟨?_, ?_, ?_, ?_⟩
  · intro s t w hstep hns hst
    cases hstep with
    | send j' hopen halive => exact absurd hst hns
    | closeSender => exact absurd hst hns
    | acquire w₀ hw hw₀ hl hp =>
      rcases eq_or_ne w w₀ with rfl | hne₀
      · simp only [Function.update_same] at hst
        cases hst
      · simp only [Function.update_noteq hne₀] at hst
        exact absurd hst hns
    | acquirePoisoned w₀ hw hw₀ hl hp =>
      rcases eq_or_ne w w₀ with rfl | hne₀
      · simp only [Function.update_same] at hst
        cases hst
      · simp only [Function.update_noteq hne₀] at hst
        exact absurd hst hns
    | dequeue w₀ j₀ rest hw hw₀ hl hq =>
      rcases eq_or_ne w w₀ with rfl | hne₀
      · simp only [Function.update_same] at hst
        cases hst
      · simp only [Function.update_noteq hne₀] at hst
        exact absurd hst hns
    | recvClosed w₀ hw hw₀ hl hq hsend =>
      rcases eq_or_ne w w₀ with rfl | hne₀
      · exact ⟨hw₀, hl, hq, hsend⟩
      · simp only [Function.update_noteq hne₀] at hst
        exact absurd hst hns
    | finish w₀ j₀ l₁ l₂ hw₀ hin =>
      rcases eq_or_ne w w₀ with rfl | hne₀
      · simp only [Function.update_same] at hst
        cases hst
      · simp only [Function.update_noteq hne₀] at hst
        exact absurd hst hns
    | jobPanic w₀ j₀ l₁ l₂ hw₀ hin =>
      rcases eq_or_ne w w₀ with rfl | hne₀
      · simp only [Function.update_same] at hst
        cases hst
      · simp only [Function.update_noteq hne₀] at hst
        exact absurd hst hns
  · intro s w hw hst hl hq hsend
    exact Step.recvClosed s w hw hst hl hq hsend
  · intro s w j rest hw hst hl hq
    exact Step.dequeue s w j rest hw hst hl hq
  · intro s t w hstep hst
    cases hstep with
    | send j' hopen halive => exact hst
    | closeSender => exact hst
    | acquire w₀ hw hw₀ hl hp =>
      rcases eq_or_ne w w₀ with rfl | hne₀
      · rw [hst] at hw₀
        cases hw₀
      · simpa only [Function.update_noteq hne₀] using hst
    | acquirePoisoned w₀ hw hw₀ hl hp =>
      rcases eq_or_ne w w₀ with rfl | hne₀
      · rw [hst] at hw₀
        cases hw₀
      · simpa only [Function.update_noteq hne₀] using hst
    | dequeue w₀ j₀ rest hw hw₀ hl hq =>
      rcases eq_or_ne w w₀ with rfl | hne₀
      · rw [hst] at hw₀
        cases hw₀
      · simpa only [Function.update_noteq hne₀] using hst
    | recvClosed w₀ hw hw₀ hl hq hsend =>
      rcases eq_or_ne w w₀ with rfl | hne₀
      · simp only [Function.update_same]
      · simpa only [Function.update_noteq hne₀] using hst
    | finish w₀ j₀ l₁ l₂ hw₀ hin =>
      rcases eq_or_ne w w₀ with rfl | hne₀
      · rw [hst] at hw₀
        cases hw₀
      · simpa only [Function.update_noteq hne₀] using hst
    | jobPanic w₀ j₀ l₁ l₂ hw₀ hin =>
      rcases eq_or_ne w w₀ with rfl | hne₀
      · rw [hst] at hw₀
        cases hw₀
      · simpa only [Function.update_noteq hne₀] using hst

theorem worker_loop_exit_characterization_witness :
    Step c6state { c6state with
      worker := Function.update c6state.worker 0 WStatus.stopped,
      lockHolder := none } :=
  worker_loop_exit_characterization.2.1 c6state 0 (by decide) rfl rfl rfl rfl

/-- C8: `handle_connection` maps the first input line by exact string
match: `GET / HTTP/1.1` → 200 OK with `pages/hello.html` and no sleep;
`GET /sleep HTTP/1.1` → a 5-second sleep then the same 200 response;
every other request line → 404 NOT FOUND with `pages/404.html`; in each
case the formatted response bytes are written back on the connection. -/
theorem handle_connection_routing (fs : String → Option (List Nat))
    (c : List Nat) (hhello : fs "pages/hello.html" = some c) :
    handle_connection fs (some "GET / HTTP/1.1")
        = Except.ok (0, mkResponse "HTTP/1.1 200 OK" c) ∧
    handle_connection fs (some "GET /sleep HTTP/1.1")
        = Except.ok (5, mkResponse "HTTP/1.1 200 OK" c) ∧
    ∀ rl : String, ∀ c₄ : List Nat,
      rl ≠ "GET / HTTP/1.1" → rl ≠ "GET /sleep HTTP/1.1" →
      fs "pages/404.html" = some c₄ →
      handle_connection fs (some rl)
        = Except.ok (0, mkResponse "HTTP/1.1 404 NOT FOUND" c₄) := by
  refine ⟨?_, ?_, ?_⟩
  · simp [handle_connection, routeRequest, hhello]
  · simp [handle_connection, routeRequest, hhello]
  · intro rl c₄ h1 h2 h404
    simp [handle_connection, routeRequest, h1, h2, h404]

theorem handle_connection_routing_witness :
    handle_connection fsDemo (some "GET /other HTTP/1.1")
      = Except.ok (0, mkResponse "HTTP/1.1 404 NOT FOUND" [110, 111]) :=
  (handle_connection_routing fsDemo [104, 105] rfl).2.2
    "GET /other HTTP/1.1" [110, 111] (by decide) (by decide) rfl

/-- Whatever the request line, the status line served contains no `\r`. -/
lemma routeRequest_status_no_cr (rl : String) :
    ∀ b ∈ strBytes (routeRequest rl).2.1, b ≠ 13 := by
  unfold routeRequest
  by_cases h1 : rl = "GET / HTTP/1.1"
  · simp only [h1, if_true, if_pos rfl]
    decide
  · by_cases h2 : rl = "GET /sleep HTTP/1.1"
    · simp only [h1, h2, if_false, if_true, if_neg, if_pos rfl]
      decide
    · simp only [h1, h2, if_false, if_neg]
      decide

/-- C9: REFUTED ON THE CODE.  One connection whose input has no request
line makes `handle_connection` panic inside the job (first conjunct).
Because the panicking worker holds the dequeue mutex (the `while let`
guard spans `job()`), the unwind poisons the mutex and every other
worker then panics in `lock().unwrap()`: a concrete reachable run of a
2-worker pool in which job 0 faults and BOTH workers end up dead, no job
ever having completed — the fault is not confined to its connection. -/
theorem job_panic_poisons_pool :
    handle_connection (fun _ => some []) none = Except.error "no request line" ∧
    ∃ s : PoolState, Reachable 2 s ∧
      s.worker 0 = WStatus.panicked ∧ s.worker 1 = WStatus.panicked ∧
      s.poisoned = true ∧ s.executed = [] ∧ s.faulted = [(0, 0)] := by
  refine ⟨rfl, ?_⟩
  refine ⟨_, Reachable.step (Reachable.step (Reachable.step (Reachable.step
      (Reachable.step Reachable.init
        (Step.send (initState 2) 0 rfl ⟨0, by decide, rfl⟩))
      (Step.acquire _ 0 (by decide) rfl rfl rfl))
      (Step.dequeue _ 0 0 [] (by decide) rfl rfl rfl))
      (Step.jobPanic _ 0 0 [] [] rfl rfl))
      (Step.acquirePoisoned _ 1 (by decide) rfl rfl rfl), rfl, rfl, rfl, rfl, rfl⟩

/-- C10: every response `handle_connection` serves consists of the status
line, `\r\n`, a `Content-Length` header, `\r\n\r\n`, and the file
contents as the body; splitting the bytes at the FIRST `\r\n\r\n` gives
back exactly the file contents as the body, and the decimal value
declared after `Content-Length: ` parses to the body's byte length. -/
theorem content_length_matches_body (fs : String → Option (List Nat))
    (rl : Option String) (slp : Nat) (resp : List Nat)
    (h : handle_connection fs rl = Except.ok (slp, resp)) :
    ∃ status contents,
      resp = mkResponse status contents ∧
      splitAtMarker resp =
        some (strBytes status ++ strBytes "\r\nContent-Length: "
                ++ decBytes contents.length, contents) ∧
      parseDec (decBytes contents.length) = contents.length := by
  cases rl with
  | none => simp [handle_connection] at h
  | some line =>
    cases hfs : fs (routeRequest line).2.2 with
    | none => simp [handle_connection, hfs] at h
    | some contents =>
      have hresp : resp = mkResponse (routeRequest line).2.1 contents := by
        simp [handle_connection, hfs] at h
        exact h.2.symm
      refine ⟨(routeRequest line).2.1, contents, hresp, ?_, parseDec_decBytes _⟩
      rw [hresp]
      exact mkResponse_split _ _ (routeRequest_status_no_cr line)

theorem content_length_matches_body_witness :
    ∃ status contents,
      mkResponse "HTTP/1.1 200 OK" [104, 105] = mkResponse status contents ∧
      splitAtMarker (mkResponse "HTTP/1.1 200 OK" [104, 105]) =
        some (strBytes status ++ strBytes "\r\nContent-Length: "
                ++ decBytes contents.length, contents) ∧
      parseDec (decBytes contents.length) = contents.length :=
  content_length_matches_body fsDemo (some "GET / HTTP/1.1") 0
    (mkResponse "HTTP/1.1 200 OK" [104, 105]) rfl

theorem execute_enqueues_iff_receiver_open_witness :
    (ThreadPool.execute true [] 3 = Except.ok ([] ++ [3]) ↔ true = true) ∧
    ((∃ msg, ThreadPool.execute true [] 3 = Except.error msg) ↔ true = false) :=
  execute_enqueues_iff_receiver_open true [] 3
